import Mathlib

/-!
# d2api: the match service (`pkg/services/match_service.go`)

A shallow embedding of `MatchService` and of the request shapes of
`pkg/requests/req.go`.  The service talks to three collaborators whose code is
not part of the two source files: the Redis-backed match store (`utils`), the
handler pool helper (`handlers`) and the game-network client (`DotaClient`).

* The store and the handler pool helper are small pure models, written from the
  specification and marked as such.
* The game network, the clock and the outcome of store writes are oracles
  collected in `Env`.  Every oracle takes the number of effects performed so far
  (`World.trace.length`), hence answers may differ from one call to the next.
* Every effect (network call, store write attempt, spawned task) is appended to
  `World.trace`, which is how "issues no call" and "issues exactly these calls"
  are stated.

A Go runtime panic is the outcome `fault`.  The optional protobuf fields that
the service dereferences (`*details.Result`, `*player.Team`, `*player.Id`) are
`Option` values, and dereferencing an absent one is a panic.  A response that
comes without error, the lobby and the members of its list are messages, never
nil pointers.
-/

namespace D2Api

/-! ## Values -/

/-- A Go `error` value, identified by its message. -/
abbrev GoError := String

/-- What a Go call produces: a value, an `error`, or a runtime panic. -/
inductive Outcome (α : Type) where
  | ok (v : α)
  | err (e : GoError)
  | fault (msg : String)
deriving DecidableEq, Repr

/-- The record `models.MatchStatus` (fields as used by the service). -/
structure MatchStatus where
  Status : String
  MatchId : Nat
  IsTournamentMatch : Bool
deriving DecidableEq, Repr

/-- The record `models.MatchDetails`: the stored unit, embedding `MatchStatus`. -/
structure MatchDetails where
  MatchStatus : D2Api.MatchStatus
  CancelReason : String
  TeamDidntShow : String
  HandlerId : Nat
deriving DecidableEq, Repr

/-- The enumeration `protocol.DOTA_GC_TEAM`, by its numeric value. -/
abbrev DOTA_GC_TEAM := Int

def DOTA_GC_TEAM_GOOD_GUYS : DOTA_GC_TEAM := 0

def DOTA_GC_TEAM_BAD_GUYS : DOTA_GC_TEAM := 1

/-- One member of a lobby (`protocol.CSODOTALobbyMember`); both fields are
optional (`*uint64`, `*DOTA_GC_TEAM`), `none` being the nil pointer. -/
structure CSODOTALobbyMember where
  Id : Option Nat
  Team : Option DOTA_GC_TEAM
deriving DecidableEq, Repr

/-- The live lobby (`protocol.CSODOTALobby`), by its member list. -/
structure CSODOTALobby where
  AllMembers : List CSODOTALobbyMember
deriving DecidableEq, Repr

/-- The match payload of a details response (`protocol.CMsgDOTAMatch`). -/
structure CMsgDOTAMatch where
  MatchId : Nat
  Duration : Nat
deriving DecidableEq, Repr

/-- The response `protocol.CMsgGCMatchDetailsResponse`; both fields are optional
(`*uint32`, `*CMsgDOTAMatch`), `none` being the nil pointer. -/
structure CMsgGCMatchDetailsResponse where
  Result : Option Nat
  Match : Option CMsgDOTAMatch
deriving DecidableEq, Repr

/-- The view `models.MatchCancel`. -/
structure MatchCancel where
  MatchStatus : D2Api.MatchStatus
  Reason : String
  TeamDidntShow : String
deriving DecidableEq, Repr

/-- The view `models.MatchLobby`. -/
structure MatchLobby where
  MatchStatus : D2Api.MatchStatus
  Lobby : CSODOTALobby
deriving DecidableEq, Repr

/-- The view `models.MatchData`. -/
structure MatchData where
  MatchStatus : D2Api.MatchStatus
  Match : Option CMsgDOTAMatch
deriving DecidableEq, Repr

/-- The `interface{}` returned by `GetMatch`, by the dynamic type of its value. -/
inductive MatchView where
  | cancel (v : MatchCancel)
  | lobby (v : MatchLobby)
  | data (v : MatchData)
  | status (v : MatchStatus)
  | details (v : MatchDetails)
deriving DecidableEq, Repr

/-- The response `response.MatchInfo`. -/
structure MatchInfo where
  Status : String
  Cancelled : Bool
  RadiantPlayers : List Nat
  DirePlayers : List Nat
deriving DecidableEq, Repr

/-- One session handler of the pool, identified by its connection. -/
structure Handler where
  Conn : Nat
deriving DecidableEq, Repr

/-- The request `requests.LobbyConfig`. -/
structure LobbyConfig where
  GameName : String
  PassKey : String
  ServerRegion : Nat
  GameMode : String
deriving DecidableEq, Repr

/-- The request `requests.CreateMatchReq`. -/
structure CreateMatchReq where
  TeamA : List Nat
  TeamB : List Nat
  LobbyConfig : D2Api.LobbyConfig
  StartTime : String
deriving DecidableEq, Repr

/-- The request `requests.ReinvitePlayersReq`. -/
structure ReinvitePlayersReq where
  MatchIdx : Int
  Players : List Nat
deriving DecidableEq, Repr

/-- The document `models.Player`, by its list of match ids. -/
structure Player where
  Matches : List Nat
deriving DecidableEq, Repr

/-- The result of a document lookup (`mongo.SingleResult`). -/
structure SingleResult where
  Err : Option GoError
  Decode : Except GoError Player

/-- The document store (`repository.Repository`): collection, `_id`. -/
structure Repository where
  Get : String → Int → SingleResult

/-- The configuration (`config.Config`), by the field the service reads. -/
structure Config where
  TimeToCancel : Nat
deriving DecidableEq, Repr

/-- The service `MatchService`. -/
structure MatchService where
  Handlers : List Handler
  Config : D2Api.Config
  Repo : Repository

/-! ## Effects -/

/-- An effect performed by the service, in the order performed. -/
inductive Event where
  | getCurrentLobby (h : Handler)
  | requestMatchDetails (h : Handler) (matchId : Nat)
  | inviteLobbyMember (h : Handler) (player : Nat) (failed : Bool)
  | setMatchRedis (matchIdx : String) (m : MatchDetails)
  | matchScheduleThread (handlers : List Handler) (req : CreateMatchReq) (matchIdx : String)
      (timeToCancel : Nat)
deriving DecidableEq, Repr

/-- The world outside the service: match store, registry of scheduled matches,
and the effects performed so far. -/
structure World where
  redis : String → Option MatchDetails
  scheduled : List String
  trace : List Event

/-- The oracles: each takes the number of effects performed so far. -/
structure Env where
  UnixNano : Nat → Int
  SetErr : Nat → Option GoError
  Lobby : Nat → Handler → Except GoError CSODOTALobby
  Details : Nat → Handler → Nat → Except GoError CMsgGCMatchDetailsResponse
  InviteFails : Nat → Handler → Nat → Bool

/-- The world after one more effect. -/
def World.emit (w : World) (e : Event) : World :=
  { w with trace := w.trace ++ [e] }

/-! ## Collaborators -/

/-- The decimal rendering `strconv.FormatInt(i, 10)`. -/
def FormatInt (i : Int) : String :=
  match i with
  | Int.ofNat m => Nat.repr m
  | Int.negSucc m => "-" ++ Nat.repr (m + 1)

/-- The decimal rendering `strconv.Itoa(i)`. -/
def Itoa (i : Int) : String := FormatInt i

/-- The error of a store read that finds no record. -/
def ErrNil : GoError := "redis: nil"

/-- The message of the panic of dereferencing a nil pointer. -/
def nilDereference : String :=
  "invalid memory address or nil pointer dereference"

/-- The error of a handler lookup in an empty pool. -/
def ErrNoHandler : GoError := "no handlers available"

/-- Modelled from the spec: `utils.GetMatchRedis` is not in the source files.
The store maps a match identifier to its record; an absent identifier is a
not-found error. -/
def GetMatchRedis (w : World) (matchIdx : String) : Except GoError MatchDetails :=
  match w.redis matchIdx with
  | some m => .ok m
  | none => .error ErrNil

/-- Modelled from the spec: `utils.SetMatchRedis` is not in the source files.
A write overwrites the record of its key; a failed write returns its error and
leaves the store as it was. -/
def SetMatchRedis (env : Env) (w : World) (matchIdx : String) (m : MatchDetails) :
    Option GoError × World :=
  match env.SetErr w.trace.length with
  | some e => (some e, w.emit (.setMatchRedis matchIdx m))
  | none =>
    (none, { (w.emit (.setMatchRedis matchIdx m)) with
      redis := fun k => if k = matchIdx then some m else w.redis k })

/-- Modelled from the spec: `scheduled_matches.Add` is not in the source files.
The registry is the collection of in-flight identifiers. -/
def scheduled_matches_Add (w : World) (matchIdx : String) : World :=
  { w with scheduled := matchIdx :: w.scheduled }

/-- Modelled from the spec: `handlers.GetFirstHandler` is not in the source
files.  It returns the first handler in pool order with its index, and fails
when the pool is empty. -/
def GetFirstHandler (handlers : List Handler) : Except GoError (Handler × Nat) :=
  match handlers with
  | [] => .error ErrNoHandler
  | h :: _ => .ok (h, 0)

/-- The call `utils.GetCurrentLobby(handler)`: one lobby fetch. -/
def GetCurrentLobby (env : Env) (w : World) (handler : Handler) :
    Except GoError CSODOTALobby × World :=
  (env.Lobby w.trace.length handler, w.emit (.getCurrentLobby handler))

/-- The call `handler.DotaClient.RequestMatchDetails(ctx, matchId)`. -/
def RequestMatchDetails (env : Env) (w : World) (handler : Handler) (matchId : Nat) :
    Except GoError CMsgGCMatchDetailsResponse × World :=
  (env.Details w.trace.length handler matchId, w.emit (.requestMatchDetails handler matchId))

/-- The call `handler.DotaClient.InviteLobbyMember(player)`: it returns nothing,
so whether the invite failed is recorded in the effect only. -/
def InviteLobbyMember (env : Env) (w : World) (handler : Handler) (player : Nat) : World :=
  w.emit (.inviteLobbyMember handler player (env.InviteFails w.trace.length handler player))

/-! ## The service -/

/-- The method `MatchService.ScheduleMatch`. -/
def ScheduleMatch (env : Env) (s : MatchService) (w : World) (req : CreateMatchReq) :
    Outcome String × World :=
  let matchIdx := FormatInt (env.UnixNano w.trace.length)
  let w1 := (SetMatchRedis env w matchIdx
    { MatchStatus := { Status := "scheduled", MatchId := 0, IsTournamentMatch := false },
      CancelReason := "", TeamDidntShow := "", HandlerId := 0 }).2
  let w2 := scheduled_matches_Add w1 matchIdx
  let w3 := w2.emit (.matchScheduleThread s.Handlers req matchIdx s.Config.TimeToCancel)
  (.ok matchIdx, w3)

/-- The method `MatchService.GetMatch`. -/
def GetMatch (env : Env) (s : MatchService) (w : World) (matchIdx : String) :
    Outcome MatchView × World :=
  match GetMatchRedis w matchIdx with
  | .error err => (.err err, w)
  | .ok m =>
    match GetFirstHandler s.Handlers with
    | .error err => (.err err, w)
    | .ok (handler, _) =>
      if m.MatchStatus.Status = "cancelled" then
        (.ok (.cancel { MatchStatus := m.MatchStatus, Reason := m.CancelReason,
                        TeamDidntShow := m.TeamDidntShow }), w)
      else if m.MatchStatus.Status = "scheduled" then
        match GetCurrentLobby env w handler with
        | (.error err, w1) => (.err err, w1)
        | (.ok lobby, w1) => (.ok (.lobby { MatchStatus := m.MatchStatus, Lobby := lobby }), w1)
      else
        match RequestMatchDetails env w handler m.MatchStatus.MatchId with
        | (.error err, w1) => (.err err, w1)
        | (.ok details, w1) =>
          match details.Result with
          | none => (.fault nilDereference, w1)
          | some result =>
            if result = 1 then
              let m1 : MatchDetails :=
                { m with MatchStatus := { m.MatchStatus with Status := "finished" } }
              let w2 := (SetMatchRedis env w1 matchIdx m1).2
              (.ok (.data { MatchStatus := m1.MatchStatus, Match := details.Match }), w2)
            else if result = 2 then
              (.ok (.status m.MatchStatus), w1)
            else
              (.err "match not found", w1)

/-- The loop body of `GetMatchInfo` over the lobby members; `none` is the panic
of `*player.Team` or `*player.Id` on a nil pointer.  The id is dereferenced
only for a member on one of the two sides. -/
def addPlayer (matchInfo : MatchInfo) (player : CSODOTALobbyMember) : Option MatchInfo :=
  match player.Team with
  | none => none
  | some team =>
    if team = DOTA_GC_TEAM_GOOD_GUYS then
      match player.Id with
      | none => none
      | some id => some { matchInfo with RadiantPlayers := matchInfo.RadiantPlayers ++ [id] }
    else if team = DOTA_GC_TEAM_BAD_GUYS then
      match player.Id with
      | none => none
      | some id => some { matchInfo with DirePlayers := matchInfo.DirePlayers ++ [id] }
    else some matchInfo

/-- The loop of `GetMatchInfo` over the lobby members, first member first; a
panic ends it. -/
def addPlayers : List CSODOTALobbyMember → MatchInfo → Option MatchInfo
  | [], matchInfo => some matchInfo
  | player :: rest, matchInfo =>
    match addPlayer matchInfo player with
    | none => none
    | some matchInfo1 => addPlayers rest matchInfo1

/-- The type switch of `GetMatchInfo`. -/
def projectView (data : MatchView) : Outcome MatchInfo :=
  match data with
  | .lobby v =>
    match addPlayers v.Lobby.AllMembers
      { Status := v.MatchStatus.Status, Cancelled := false,
        RadiantPlayers := [], DirePlayers := [] } with
    | none => .fault nilDereference
    | some matchInfo => .ok matchInfo
  | .data v =>
    .ok { Status := v.MatchStatus.Status, Cancelled := false,
          RadiantPlayers := [], DirePlayers := [] }
  | .cancel v =>
    .ok { Status := v.MatchStatus.Status, Cancelled := true,
          RadiantPlayers := [], DirePlayers := [] }
  | .details v =>
    .ok { Status := v.MatchStatus.Status, Cancelled := false,
          RadiantPlayers := [], DirePlayers := [] }
  | _ => .err "unknown match type"

/-- The method `MatchService.GetMatchInfo`. -/
def GetMatchInfo (env : Env) (s : MatchService) (w : World) (matchIdx : String) :
    Outcome MatchInfo × World :=
  match GetMatch env s w matchIdx with
  | (.err err, w1) => (.err err, w1)
  | (.fault msg, w1) => (.fault msg, w1)
  | (.ok data, w1) => (projectView data, w1)

/-- The slice expression `xs[:limit]` of Go: a panic outside `0 ≤ limit ≤ len`. -/
def sliceTo (xs : List Nat) (limit : Int) : Option (List Nat) :=
  if 0 ≤ limit ∧ limit ≤ (xs.length : Int) then some (xs.take limit.toNat) else none

/-- The request loop of `GetPlayerHistory`; `found` is the slice `matches`. -/
def requestAll (env : Env) (handler : Handler) :
    List Nat → World → List CMsgGCMatchDetailsResponse →
      Outcome (List CMsgGCMatchDetailsResponse) × World
  | [], w, found => (.ok found, w)
  | matchId :: rest, w, found =>
    match RequestMatchDetails env w handler matchId with
    | (.error err, w1) => (.err err, w1)
    | (.ok details, w1) => requestAll env handler rest w1 (found ++ [details])

/-- The method `MatchService.GetPlayerHistory`. -/
def GetPlayerHistory (env : Env) (s : MatchService) (w : World) (steamId : Int) (limit : Int) :
    Outcome (List CMsgGCMatchDetailsResponse) × World :=
  let player := s.Repo.Get "players" steamId
  match player.Err with
  | some err => (.err err, w)
  | none =>
    match player.Decode with
    | .error err => (.err err, w)
    | .ok playerModel =>
      let sliced : Option (List Nat) :=
        if (playerModel.Matches.length : Int) < limit then some playerModel.Matches
        else sliceTo playerModel.Matches limit
      match sliced with
      | none => (.fault "slice bounds out of range", w)
      | some matchIds =>
        match GetFirstHandler s.Handlers with
        | .error err => (.err err, w)
        | .ok (handler, _) => requestAll env handler matchIds w []

/-- The method `MatchService.ReinvitePlayers`: `ok ()` is the `nil` error. -/
def ReinvitePlayers (env : Env) (s : MatchService) (w : World) (req : ReinvitePlayersReq) :
    Outcome Unit × World :=
  match GetMatchRedis w (Itoa req.MatchIdx) with
  | .error err => (.err err, w)
  | .ok m =>
    match s.Handlers[m.HandlerId]? with
    | none => (.fault "index out of range", w)
    | some handler =>
      (.ok (), req.Players.foldl (fun w1 player => InviteLobbyMember env w1 handler player) w)

/-! ## Sequences of calls -/

/-- One call of the service. -/
inductive Call where
  | scheduleMatch (req : CreateMatchReq)
  | getMatch (matchIdx : String)
  | getMatchInfo (matchIdx : String)
  | reinvitePlayers (req : ReinvitePlayersReq)
deriving DecidableEq, Repr

/-- The world after one call. -/
def Call.run (env : Env) (s : MatchService) (w : World) : Call → World
  | .scheduleMatch req => (ScheduleMatch env s w req).2
  | .getMatch matchIdx => (GetMatch env s w matchIdx).2
  | .getMatchInfo matchIdx => (GetMatchInfo env s w matchIdx).2
  | .reinvitePlayers req => (ReinvitePlayers env s w req).2

/-- The world after a sequence of calls, first call first. -/
def runCalls (env : Env) (s : MatchService) : List Call → World → World
  | [], w => w
  | c :: cs, w => runCalls env s cs (c.run env s w)

/-- A scheduling call is fresh when the identifier it generates is not yet a key
of the store; the other calls generate no identifier. -/
def Call.fresh (env : Env) (w : World) : Call → Bool
  | .scheduleMatch _ => (w.redis (FormatInt (env.UnixNano w.trace.length))).isNone
  | _ => true

/-- Every scheduling call of the sequence is fresh at the moment it is made. -/
def freshCalls (env : Env) (s : MatchService) : List Call → World → Bool
  | [], _ => true
  | c :: cs, w => c.fresh env w && freshCalls env s cs (c.run env s w)

/-- The invite effects for the players `ps` through `handler`, in order, the
first of them being effect number `t`. -/
def inviteEvents (env : Env) (handler : Handler) : Nat → List Nat → List Event
  | _, [] => []
  | t, p :: ps =>
    .inviteLobbyMember handler p (env.InviteFails t handler p) ::
      inviteEvents env handler (t + 1) ps

/-- The handler and the player of an invite effect. -/
def Event.inviteTarget : Event → Option (Handler × Nat)
  | .inviteLobbyMember h p _ => some (h, p)
  | _ => none

/-- A member the loop of `GetMatchInfo` can process: it carries a team, and it
carries an id when its team is one of the two sides. -/
def memberComplete (p : CSODOTALobbyMember) : Bool :=
  match p.Team with
  | none => false
  | some team =>
    if team = DOTA_GC_TEAM_GOOD_GUYS ∨ team = DOTA_GC_TEAM_BAD_GUYS then p.Id.isSome else true

/-- Whether a member is on the given team. -/
def onTeam (team : DOTA_GC_TEAM) (p : CSODOTALobbyMember) : Bool :=
  decide (p.Team = some team)

/-- The record with its status replaced by "finished". -/
def MatchDetails.finish (m : MatchDetails) : MatchDetails :=
  { m with MatchStatus := { m.MatchStatus with Status := "finished" } }

end D2Api

namespace D2Api

/-! ## Concrete inputs -/

/-- A pool of two handlers. -/
def pool2 : List Handler := [{ Conn := 10 }, { Conn := 11 }]

/-- A service over a given pool; the document store knows player 76 only. -/
def serviceOf (handlers : List Handler) : MatchService :=
  { Handlers := handlers
    Config := { TimeToCancel := 300 }
    Repo := { Get := fun _ steamId =>
      if steamId = 76 then { Err := none, Decode := .ok { Matches := [901, 902, 903] } }
      else { Err := some "mongo: no documents in result", Decode := .error "no document" } } }

/-- A stored record with a given status, external match id and handler index. -/
def recordOf (status : String) (matchId handlerId : Nat) : MatchDetails :=
  { MatchStatus := { Status := status, MatchId := matchId, IsTournamentMatch := false }
    CancelReason := if status = "cancelled" then "players did not join" else ""
    TeamDidntShow := if status = "cancelled" then "teamB" else ""
    HandlerId := handlerId }

/-- A world whose store holds the one record `m` under the key "5". -/
def worldOf (m : MatchDetails) : World :=
  { redis := fun k => if k = "5" then some m else none
    scheduled := []
    trace := [] }

/-- The lobby of the scenario: ids 1 and 2 on side A, id 6 on side B. -/
def lobby126 : CSODOTALobby :=
  { AllMembers := [{ Id := some 1, Team := some DOTA_GC_TEAM_GOOD_GUYS },
                   { Id := some 2, Team := some DOTA_GC_TEAM_GOOD_GUYS },
                   { Id := some 6, Team := some DOTA_GC_TEAM_BAD_GUYS }] }

/-- A lobby whose second member carries no team. -/
def lobbyNoTeam : CSODOTALobby :=
  { AllMembers := [{ Id := some 1, Team := some DOTA_GC_TEAM_GOOD_GUYS },
                   { Id := some 3, Team := none }] }

/-- Oracles: the clock reads 42, every details request answers with the given
result code and the payload of match 999, store writes fail as given. -/
def envOf (resultCode : Nat) (setErr : Option GoError) : Env :=
  { UnixNano := fun _ => 42
    SetErr := fun _ => setErr
    Lobby := fun _ _ => .ok lobby126
    Details := fun _ _ _ =>
      .ok { Result := some resultCode, Match := some { MatchId := 999, Duration := 1800 } }
    InviteFails := fun _ _ _ => false }

/-- Oracles as `envOf 1 none`, but the lobby fetch answers with the given lobby
and every details response comes without a result code. -/
def envBare (lobby : CSODOTALobby) : Env :=
  { UnixNano := fun _ => 42
    SetErr := fun _ => none
    Lobby := fun _ _ => .ok lobby
    Details := fun _ _ _ => .ok { Result := none, Match := none }
    InviteFails := fun _ _ _ => false }

end D2Api

namespace D2Api

/-! ## Store and pool lemmas -/

theorem GetMatchRedis_of_some {w : World} {matchIdx : String} {m : MatchDetails}
    (hk : w.redis matchIdx = some m) : GetMatchRedis w matchIdx = .ok m := by
  simp [GetMatchRedis, hk]

theorem GetFirstHandler_cons (h : Handler) (rest : List Handler) :
    GetFirstHandler (h :: rest) = .ok (h, 0) := rfl

theorem emit_trace_length (w : World) (e : Event) :
    (w.emit e).trace.length = w.trace.length + 1 := by
  simp [World.emit]

theorem emit_redis (w : World) (e : Event) : (w.emit e).redis = w.redis := rfl

theorem SetMatchRedis_fail {env : Env} {w : World} {e : GoError}
    (hset : env.SetErr w.trace.length = some e) (matchIdx : String) (m : MatchDetails) :
    SetMatchRedis env w matchIdx m = (some e, w.emit (.setMatchRedis matchIdx m)) := by
  simp [SetMatchRedis, hset]

theorem SetMatchRedis_redis_self {env : Env} {w : World}
    (hset : env.SetErr w.trace.length = none) (matchIdx : String) (m : MatchDetails) :
    (SetMatchRedis env w matchIdx m).2.redis matchIdx = some m := by
  simp [SetMatchRedis, hset]

theorem SetMatchRedis_redis_other {env : Env} {w : World} (matchIdx : String) (m : MatchDetails)
    {k : String} (hne : k ≠ matchIdx) :
    (SetMatchRedis env w matchIdx m).2.redis k = w.redis k := by
  unfold SetMatchRedis
  cases env.SetErr w.trace.length <;> simp [hne, World.emit]

/-- What `GetMatch` does on a record that is neither cancelled nor scheduled,
once the details request has answered: a panic when the response carries no
result code, and the three-way test on the result code otherwise. -/
theorem GetMatch_details {env : Env} {s : MatchService} {w : World} {matchIdx : String}
    {m : MatchDetails} {h : Handler} {rest : List Handler} {d : CMsgGCMatchDetailsResponse}
    (hk : w.redis matchIdx = some m)
    (hc : m.MatchStatus.Status ≠ "cancelled") (hs : m.MatchStatus.Status ≠ "scheduled")
    (hp : s.Handlers = h :: rest)
    (hd : env.Details w.trace.length h m.MatchStatus.MatchId = .ok d) :
    GetMatch env s w matchIdx =
      match d.Result with
      | none => (.fault nilDereference, w.emit (.requestMatchDetails h m.MatchStatus.MatchId))
      | some result =>
        if result = 1 then
          (.ok (.data { MatchStatus := m.finish.MatchStatus, Match := d.Match }),
            (SetMatchRedis env (w.emit (.requestMatchDetails h m.MatchStatus.MatchId))
              matchIdx m.finish).2)
        else if result = 2 then
          (.ok (.status m.MatchStatus), w.emit (.requestMatchDetails h m.MatchStatus.MatchId))
        else
          (.err "match not found", w.emit (.requestMatchDetails h m.MatchStatus.MatchId)) := by
  simp only [GetMatch, GetMatchRedis_of_some hk, hp, GetFirstHandler_cons, if_neg hc, if_neg hs,
    RequestMatchDetails, hd, MatchDetails.finish]

/-! ## Claims about `GetMatch` -/

/-- C2 (as amended): for a record with `Status = "cancelled"` and a non-empty
handler pool, `GetMatch` returns the cancellation view carrying the record's
`MatchStatus`, `CancelReason` and `TeamDidntShow`, and the world is exactly as
before: no game-network call was issued and the store is unchanged. -/
theorem GetMatch_cancelled (env : Env) (s : MatchService) (w : World) (matchIdx : String)
    (m : MatchDetails) (hk : w.redis matchIdx = some m)
    (hc : m.MatchStatus.Status = "cancelled") (hp : s.Handlers ≠ []) :
    GetMatch env s w matchIdx =
      (.ok (.cancel { MatchStatus := m.MatchStatus, Reason := m.CancelReason,
                      TeamDidntShow := m.TeamDidntShow }), w) := by
  obtain ⟨h, rest, hp⟩ := List.exists_cons_of_ne_nil hp
  simp only [GetMatch, GetMatchRedis_of_some hk, hp, GetFirstHandler_cons, if_pos hc]

/-- C2, witness: the cancelled record under key "5" with the pool of two. -/
theorem GetMatch_cancelled_witness :
    GetMatch (envOf 1 none) (serviceOf pool2) (worldOf (recordOf "cancelled" 0 0)) "5" =
      (.ok (.cancel { MatchStatus := (recordOf "cancelled" 0 0).MatchStatus,
                      Reason := (recordOf "cancelled" 0 0).CancelReason,
                      TeamDidntShow := (recordOf "cancelled" 0 0).TeamDidntShow }),
        worldOf (recordOf "cancelled" 0 0)) :=
  GetMatch_cancelled (envOf 1 none) (serviceOf pool2) (worldOf (recordOf "cancelled" 0 0)) "5"
    (recordOf "cancelled" 0 0) (by decide) (by decide) (by decide)

/-- C2, counterexample: with the empty pool the handler lookup precedes the
status test, so `GetMatch` on a cancelled record returns the lookup error and
no view. -/
theorem GetMatch_cancelled_empty_pool :
    (worldOf (recordOf "cancelled" 0 0)).redis "5" = some (recordOf "cancelled" 0 0) ∧
    (recordOf "cancelled" 0 0).MatchStatus.Status = "cancelled" ∧
    (serviceOf []).Handlers = [] ∧
    (GetMatch (envOf 1 none) (serviceOf []) (worldOf (recordOf "cancelled" 0 0)) "5").1 =
      .err ErrNoHandler ∧
    ¬ ∃ v, (GetMatch (envOf 1 none) (serviceOf []) (worldOf (recordOf "cancelled" 0 0)) "5").1 =
      .ok v := by
  refine ⟨by decide, by decide, rfl, by decide, ?_⟩
  rintro ⟨v, hv⟩
  have h : (GetMatch (envOf 1 none) (serviceOf []) (worldOf (recordOf "cancelled" 0 0)) "5").1 =
      .err ErrNoHandler := by decide
  rw [h] at hv
  cases hv

/-- C3: for a record that is neither cancelled nor scheduled, a non-empty pool
and a details answer with result code 1, `GetMatch` returns the finished view
(status "finished", the payload of the answer) whatever the store write does;
when the write succeeds the store maps `matchIdx` to the previous record with
only `Status` replaced and every other key is as before; when the write fails
the view is the same, there is no error, and the store is as before. -/
theorem GetMatch_complete (env : Env) (s : MatchService) (w : World) (matchIdx : String)
    (m : MatchDetails) (h : Handler) (rest : List Handler) (d : CMsgGCMatchDetailsResponse)
    (hk : w.redis matchIdx = some m)
    (hc : m.MatchStatus.Status ≠ "cancelled") (hs : m.MatchStatus.Status ≠ "scheduled")
    (hp : s.Handlers = h :: rest)
    (hd : env.Details w.trace.length h m.MatchStatus.MatchId = .ok d)
    (hr : d.Result = some 1) :
    (GetMatch env s w matchIdx).1 =
        .ok (.data { MatchStatus := { m.MatchStatus with Status := "finished" },
                     Match := d.Match }) ∧
    (env.SetErr (w.trace.length + 1) = none →
      (GetMatch env s w matchIdx).2.redis matchIdx =
          some { m with MatchStatus := { m.MatchStatus with Status := "finished" } } ∧
      ∀ k, k ≠ matchIdx → (GetMatch env s w matchIdx).2.redis k = w.redis k) ∧
    (∀ e, env.SetErr (w.trace.length + 1) = some e →
      (GetMatch env s w matchIdx).2.redis = w.redis) := by
  rw [GetMatch_details hk hc hs hp hd, hr]
  simp only [if_true]
  refine ⟨rfl, fun hset => ⟨?_, fun k hne => ?_⟩, fun e hset => ?_⟩
  · exact SetMatchRedis_redis_self (by rw [emit_trace_length]; exact hset) _ _
  · rw [SetMatchRedis_redis_other _ _ hne, emit_redis]
  · rw [SetMatchRedis_fail (by rw [emit_trace_length]; exact hset)]
    rfl

/-- C3, witness: the record under key "5" with external match 999, answer code 1
and a failing store write. -/
theorem GetMatch_complete_witness :
    (GetMatch (envOf 1 (some "redis: connection refused")) (serviceOf pool2)
        (worldOf (recordOf "lobby_active" 999 0)) "5").1 =
      .ok (.data { MatchStatus := { Status := "finished", MatchId := 999,
                                    IsTournamentMatch := false },
                   Match := some { MatchId := 999, Duration := 1800 } }) :=
  (GetMatch_complete (envOf 1 (some "redis: connection refused")) (serviceOf pool2)
    (worldOf (recordOf "lobby_active" 999 0)) "5" (recordOf "lobby_active" 999 0)
    { Conn := 10 } [{ Conn := 11 }]
    { Result := some 1, Match := some { MatchId := 999, Duration := 1800 } }
    (by decide) (by decide) (by decide) rfl rfl rfl).1

/-- C7 (as amended): for a record that is neither cancelled nor scheduled, a
non-empty pool and a successful details request whose response carries the
result code `code`, `GetMatch` fails with "match not found" exactly when
`code` is neither 1 nor 2; then the only effect is the details request and the
store is as before; with result code 2 it returns the record's current
`MatchStatus`, the only effect again being the details request (no store
write). -/
theorem GetMatch_not_found_iff (env : Env) (s : MatchService) (w : World) (matchIdx : String)
    (m : MatchDetails) (h : Handler) (rest : List Handler) (d : CMsgGCMatchDetailsResponse)
    (code : Nat)
    (hk : w.redis matchIdx = some m)
    (hc : m.MatchStatus.Status ≠ "cancelled") (hs : m.MatchStatus.Status ≠ "scheduled")
    (hp : s.Handlers = h :: rest)
    (hd : env.Details w.trace.length h m.MatchStatus.MatchId = .ok d)
    (hres : d.Result = some code) :
    ((GetMatch env s w matchIdx).1 = .err "match not found" ↔ (code ≠ 1 ∧ code ≠ 2)) ∧
    ((code ≠ 1 ∧ code ≠ 2) →
      GetMatch env s w matchIdx =
        (.err "match not found", w.emit (.requestMatchDetails h m.MatchStatus.MatchId)) ∧
      (GetMatch env s w matchIdx).2.redis = w.redis) ∧
    (code = 2 →
      GetMatch env s w matchIdx =
        (.ok (.status m.MatchStatus), w.emit (.requestMatchDetails h m.MatchStatus.MatchId)) ∧
      (GetMatch env s w matchIdx).2.redis = w.redis) := by
  rw [GetMatch_details hk hc hs hp hd, hres]
  by_cases h1 : code = 1
  · simp [h1]
  · by_cases h2 : code = 2
    · simp [h2, emit_redis]
    · simp [h1, h2, emit_redis]

/-- C7, witness: the record under key "5", answered with result code 3. -/
theorem GetMatch_not_found_iff_witness :
    (GetMatch (envOf 3 none) (serviceOf pool2) (worldOf (recordOf "lobby_active" 999 0)) "5").1 =
      .err "match not found" :=
  ((GetMatch_not_found_iff (envOf 3 none) (serviceOf pool2)
    (worldOf (recordOf "lobby_active" 999 0)) "5" (recordOf "lobby_active" 999 0)
    { Conn := 10 } [{ Conn := 11 }]
    { Result := some 3, Match := some { MatchId := 999, Duration := 1800 } } 3
    (by decide) (by decide) (by decide) rfl rfl rfl).1).2 ⟨by decide, by decide⟩

/-- C7, counterexample: the record under key "5" is neither cancelled nor
scheduled, the pool is not empty and the details request succeeds, but the
response carries no result code.  The result code is then neither 1 nor 2, yet
`GetMatch` does not fail with "match not found": dereferencing the absent
result code is a panic. -/
theorem GetMatch_no_result_code :
    (worldOf (recordOf "lobby_active" 999 0)).redis "5" = some (recordOf "lobby_active" 999 0) ∧
    (envBare lobby126).Details 0 { Conn := 10 } 999 = .ok { Result := none, Match := none } ∧
    (none : Option Nat) ≠ some 1 ∧ (none : Option Nat) ≠ some 2 ∧
    (GetMatch (envBare lobby126) (serviceOf pool2) (worldOf (recordOf "lobby_active" 999 0))
      "5").1 = .fault nilDereference ∧
    (GetMatch (envBare lobby126) (serviceOf pool2) (worldOf (recordOf "lobby_active" 999 0))
      "5").1 ≠ .err "match not found" := by
  refine ⟨by decide, rfl, by decide, by decide, by decide, by decide⟩

end D2Api

namespace D2Api

/-! ## The status projector -/

theorem good_ne_bad : DOTA_GC_TEAM_GOOD_GUYS ≠ DOTA_GC_TEAM_BAD_GUYS := by decide

/-- Over members that all carry what the loop dereferences, the member loop
appends, to each roster, the ids of the members of that side in list order. -/
theorem addPlayers_complete (members : List CSODOTALobbyMember) (init : MatchInfo)
    (hall : ∀ p ∈ members, memberComplete p = true) :
    addPlayers members init =
      some { init with
        RadiantPlayers := init.RadiantPlayers ++
          (members.filter (onTeam DOTA_GC_TEAM_GOOD_GUYS)).filterMap (fun p => p.Id)
        DirePlayers := init.DirePlayers ++
          (members.filter (onTeam DOTA_GC_TEAM_BAD_GUYS)).filterMap (fun p => p.Id) } := by
  induction members generalizing init with
  | nil => simp [addPlayers]
  | cons p ps ih =>
    have hp : memberComplete p = true := hall p (List.mem_cons_self _ _)
    have hps : ∀ q ∈ ps, memberComplete q = true := fun q hq => hall q (List.mem_cons_of_mem _ hq)
    obtain ⟨id, team⟩ := p
    cases team with
    | none => simp [memberComplete] at hp
    | some t =>
      by_cases hg : t = DOTA_GC_TEAM_GOOD_GUYS
      · subst hg
        cases id with
        | none => simp [memberComplete] at hp
        | some i =>
          simp [addPlayers, addPlayer, ih _ hps, List.filter_cons, onTeam, good_ne_bad]
      · by_cases hb : t = DOTA_GC_TEAM_BAD_GUYS
        · subst hb
          cases id with
          | none => simp [memberComplete] at hp
          | some i =>
            simp [addPlayers, addPlayer, ih _ hps, List.filter_cons, onTeam, good_ne_bad.symm]
        · simp [addPlayers, addPlayer, ih _ hps, List.filter_cons, onTeam, hg, hb]

/-- The member loop panics when some member lacks what the loop dereferences. -/
theorem addPlayers_incomplete (members : List CSODOTALobbyMember) (init : MatchInfo)
    (hsome : ∃ p ∈ members, memberComplete p = false) : addPlayers members init = none := by
  induction members generalizing init with
  | nil => simp at hsome
  | cons p ps ih =>
    by_cases hp : memberComplete p = true
    · have hrest : ∃ q ∈ ps, memberComplete q = false := by
        obtain ⟨q, hq, hqc⟩ := hsome
        rcases List.mem_cons.mp hq with hqp | hqps
        · rw [hqp, hp] at hqc; cases hqc
        · exact ⟨q, hqps, hqc⟩
      simp only [addPlayers]
      cases addPlayer init p with
      | none => rfl
      | some init1 => exact ih init1 hrest
    · obtain ⟨id, team⟩ := p
      cases team with
      | none => simp [addPlayers, addPlayer]
      | some t =>
        by_cases hg : t = DOTA_GC_TEAM_GOOD_GUYS
        · subst hg
          cases id with
          | none => simp [addPlayers, addPlayer]
          | some i => simp [memberComplete] at hp
        · by_cases hb : t = DOTA_GC_TEAM_BAD_GUYS
          · subst hb
            cases id with
            | none => simp [addPlayers, addPlayer, good_ne_bad.symm]
            | some i => simp [memberComplete] at hp
          · simp [memberComplete, hg, hb] at hp

/-- Among members that all carry what the loop dereferences, every member of a
side has an id: the roster is the list of the id fields of that side. -/
theorem roster_ids (team : DOTA_GC_TEAM)
    (hteam : team = DOTA_GC_TEAM_GOOD_GUYS ∨ team = DOTA_GC_TEAM_BAD_GUYS)
    (members : List CSODOTALobbyMember) (hall : ∀ p ∈ members, memberComplete p = true) :
    ((members.filter (onTeam team)).filterMap (fun p => p.Id)).map some =
      (members.filter (onTeam team)).map (fun p => p.Id) := by
  induction members with
  | nil => rfl
  | cons p ps ih =>
    have hp : memberComplete p = true := hall p (List.mem_cons_self _ _)
    have hps : ∀ q ∈ ps, memberComplete q = true := fun q hq => hall q (List.mem_cons_of_mem _ hq)
    by_cases hon : onTeam team p = true
    · have hpt : p.Team = some team := by simpa [onTeam] using hon
      obtain ⟨id, pteam⟩ := p
      simp only at hpt
      subst hpt
      cases id with
      | none => rcases hteam with h1 | h1 <;> simp [memberComplete, h1] at hp
      | some i =>
        rw [List.filter_cons_of_pos hon]
        simp [ih hps]
    · rw [List.filter_cons_of_neg hon]
      exact ih hps

/-- No member is on both sides, so the two rosters together are no longer than
the member list. -/
theorem rosters_length_le (members : List CSODOTALobbyMember) :
    ((members.filter (onTeam DOTA_GC_TEAM_GOOD_GUYS)).filterMap (fun p => p.Id)).length +
      ((members.filter (onTeam DOTA_GC_TEAM_BAD_GUYS)).filterMap (fun p => p.Id)).length ≤
      members.length := by
  have hg := List.length_filterMap_le (fun p : CSODOTALobbyMember => p.Id)
    (members.filter (onTeam DOTA_GC_TEAM_GOOD_GUYS))
  have hb := List.length_filterMap_le (fun p : CSODOTALobbyMember => p.Id)
    (members.filter (onTeam DOTA_GC_TEAM_BAD_GUYS))
  have hsum : (members.filter (onTeam DOTA_GC_TEAM_GOOD_GUYS)).length +
      (members.filter (onTeam DOTA_GC_TEAM_BAD_GUYS)).length ≤ members.length := by
    induction members with
    | nil => simp
    | cons p ps ih =>
      have ih1 := ih (List.length_filterMap_le _ _) (List.length_filterMap_le _ _)
      by_cases hg1 : p.Team = some DOTA_GC_TEAM_GOOD_GUYS
      · simp [List.filter_cons, onTeam, hg1, good_ne_bad]
        omega
      · by_cases hb1 : p.Team = some DOTA_GC_TEAM_BAD_GUYS
        · simp [List.filter_cons, onTeam, hb1, good_ne_bad.symm]
          omega
        · simp [List.filter_cons, onTeam, hg1, hb1]
          omega
  omega

/-- A lobby view comes out of `GetMatch` only for a stored status "scheduled",
and it carries the stored `MatchStatus`. -/
theorem GetMatch_lobby_inv {env : Env} {s : MatchService} {w w1 : World} {matchIdx : String}
    {m : MatchDetails} {v : MatchLobby} (hk : w.redis matchIdx = some m)
    (hview : GetMatch env s w matchIdx = (.ok (.lobby v), w1)) :
    m.MatchStatus.Status = "scheduled" ∧ v.MatchStatus = m.MatchStatus := by
  simp only [GetMatch, GetMatchRedis_of_some hk] at hview
  cases hp : s.Handlers with
  | nil => simp [hp, GetFirstHandler] at hview
  | cons h rest =>
    simp only [hp, GetFirstHandler_cons] at hview
    by_cases hc : m.MatchStatus.Status = "cancelled"
    · simp [hc] at hview
    · by_cases hs : m.MatchStatus.Status = "scheduled"
      · refine ⟨hs, ?_⟩
        simp only [if_neg hc, if_pos hs, GetCurrentLobby] at hview
        cases hl : env.Lobby w.trace.length h with
        | error e => simp [hl] at hview
        | ok lobby =>
          simp only [hl, Prod.mk.injEq, Outcome.ok.injEq, MatchView.lobby.injEq] at hview
          rw [← hview.1]
      · simp only [if_neg hc, if_neg hs, RequestMatchDetails] at hview
        cases hd : env.Details w.trace.length h m.MatchStatus.MatchId with
        | error e => simp [hd] at hview
        | ok d =>
          simp only [hd] at hview
          cases hres : d.Result with
          | none => simp [hres] at hview
          | some code =>
            by_cases h1 : code = 1
            · simp [hres, h1] at hview
            · by_cases h2 : code = 2
              · simp [hres, h2] at hview
              · simp [hres, h1, h2] at hview

end D2Api

namespace D2Api

/-! ## Claims about `GetMatchInfo` -/

/-- C5 (as amended): for every lobby view returned by `GetMatch` on a stored
record, whose members all carry a team and, when on GOOD_GUYS or BAD_GUYS, an
id, the stored status is "scheduled" and `GetMatchInfo` returns, in the same
world, a `MatchInfo` with the stored status, `Cancelled = false`,
`RadiantPlayers` the ids of exactly the members on team GOOD_GUYS in member
order and `DirePlayers` the ids of exactly the members on team BAD_GUYS in
member order; the two rosters together are no longer than the member list. -/
theorem GetMatchInfo_lobby (env : Env) (s : MatchService) (w w1 : World) (matchIdx : String)
    (m : MatchDetails) (v : MatchLobby) (hk : w.redis matchIdx = some m)
    (hview : GetMatch env s w matchIdx = (.ok (.lobby v), w1))
    (hall : ∀ p ∈ v.Lobby.AllMembers, memberComplete p = true) :
    m.MatchStatus.Status = "scheduled" ∧
    (∃ info : MatchInfo,
      GetMatchInfo env s w matchIdx = (.ok info, w1) ∧
      info.Status = m.MatchStatus.Status ∧
      info.Cancelled = false ∧
      info.RadiantPlayers.map some =
        (v.Lobby.AllMembers.filter (onTeam DOTA_GC_TEAM_GOOD_GUYS)).map (fun p => p.Id) ∧
      info.DirePlayers.map some =
        (v.Lobby.AllMembers.filter (onTeam DOTA_GC_TEAM_BAD_GUYS)).map (fun p => p.Id) ∧
      info.RadiantPlayers.length + info.DirePlayers.length ≤ v.Lobby.AllMembers.length) := by
  obtain ⟨hs, hv⟩ := GetMatch_lobby_inv hk hview
  have hinfo : GetMatchInfo env s w matchIdx =
      (.ok { Status := v.MatchStatus.Status
             Cancelled := false
             RadiantPlayers :=
               (v.Lobby.AllMembers.filter (onTeam DOTA_GC_TEAM_GOOD_GUYS)).filterMap
                 (fun p => p.Id)
             DirePlayers :=
               (v.Lobby.AllMembers.filter (onTeam DOTA_GC_TEAM_BAD_GUYS)).filterMap
                 (fun p => p.Id) }, w1) := by
    simp only [GetMatchInfo, hview, projectView, addPlayers_complete _ _ hall, List.nil_append]
  exact ⟨hs, _, hinfo, congrArg MatchStatus.Status hv, rfl,
    roster_ids _ (Or.inl rfl) _ hall, roster_ids _ (Or.inr rfl) _ hall, rosters_length_le _⟩

/-- C5, witness: members (1, GOOD), (2, GOOD), (6, BAD) give the rosters
`[1, 2]` and `[6]`. -/
theorem GetMatchInfo_lobby_witness :
    (∃ info : MatchInfo,
      GetMatchInfo (envOf 1 none) (serviceOf pool2) (worldOf (recordOf "scheduled" 0 0)) "5" =
        (.ok info,
          (worldOf (recordOf "scheduled" 0 0)).emit (.getCurrentLobby { Conn := 10 })) ∧
      info.Status = "scheduled" ∧
      info.Cancelled = false ∧
      info.RadiantPlayers.map some = [some 1, some 2] ∧
      info.DirePlayers.map some = [some 6] ∧
      info.RadiantPlayers.length + info.DirePlayers.length ≤ 3) ∧
    (GetMatchInfo (envOf 1 none) (serviceOf pool2) (worldOf (recordOf "scheduled" 0 0)) "5").1 =
      .ok { Status := "scheduled", Cancelled := false,
            RadiantPlayers := [1, 2], DirePlayers := [6] } :=
  ⟨(GetMatchInfo_lobby (envOf 1 none) (serviceOf pool2) (worldOf (recordOf "scheduled" 0 0))
      ((worldOf (recordOf "scheduled" 0 0)).emit (.getCurrentLobby { Conn := 10 })) "5"
      (recordOf "scheduled" 0 0)
      { MatchStatus := (recordOf "scheduled" 0 0).MatchStatus, Lobby := lobby126 }
      (by decide) rfl (by decide)).2,
    by decide⟩

/-- C5, counterexample: the record under key "5" is scheduled and the lobby
fetch answers with a lobby whose second member carries no team.  `GetMatch`
returns the lobby view without error, and `GetMatchInfo` returns no
`MatchInfo`: dereferencing the absent team is a panic. -/
theorem GetMatchInfo_lobby_no_team :
    (GetMatch (envBare lobbyNoTeam) (serviceOf pool2) (worldOf (recordOf "scheduled" 0 0))
      "5").1 =
      .ok (.lobby { MatchStatus := (recordOf "scheduled" 0 0).MatchStatus,
                    Lobby := lobbyNoTeam }) ∧
    (GetMatchInfo (envBare lobbyNoTeam) (serviceOf pool2) (worldOf (recordOf "scheduled" 0 0))
      "5").1 = .fault nilDereference ∧
    ¬ ∃ info, (GetMatchInfo (envBare lobbyNoTeam) (serviceOf pool2)
      (worldOf (recordOf "scheduled" 0 0)) "5").1 = .ok info := by
  refine ⟨by decide, by decide, ?_⟩
  rintro ⟨info, hinfo⟩
  have hfault : (GetMatchInfo (envBare lobbyNoTeam) (serviceOf pool2)
      (worldOf (recordOf "scheduled" 0 0)) "5").1 = .fault nilDereference := by decide
  rw [hfault] at hinfo
  cases hinfo

/-- The member loop of `GetMatchInfo` panics exactly when some member lacks a
team, or is on one of the two sides and lacks an id. -/
theorem projectView_lobby_fault_iff (v : MatchLobby) :
    projectView (.lobby v) = .fault nilDereference ↔
      ∃ p ∈ v.Lobby.AllMembers, memberComplete p = false := by
  by_cases hall : ∀ p ∈ v.Lobby.AllMembers, memberComplete p = true
  · simp only [projectView, addPlayers_complete _ _ hall]
    constructor
    · intro hcontra; cases hcontra
    · rintro ⟨p, hp, hpc⟩
      rw [hall p hp] at hpc
      cases hpc
  · have hsome : ∃ p ∈ v.Lobby.AllMembers, memberComplete p = false := by
      by_contra hnone
      apply hall
      intro p hp
      by_contra hpc
      exact hnone ⟨p, hp, by simpa using hpc⟩
    have hfault : projectView (.lobby v) = .fault nilDereference := by
      simp only [projectView, addPlayers_incomplete _ _ hsome]
    exact ⟨fun _ => hsome, fun _ => hfault⟩

/-- Whatever view `GetMatch` returns, `GetMatchInfo` is the type switch on it. -/
theorem GetMatchInfo_of_view (env : Env) (s : MatchService) (w w1 : World) (matchIdx : String)
    (v : MatchView) (hview : GetMatch env s w matchIdx = (.ok v, w1)) :
    GetMatchInfo env s w matchIdx = (projectView v, w1) := by
  simp only [GetMatchInfo, hview]

/-- The type switch fails with "unknown match type" exactly on the bare
`MatchStatus` view. -/
theorem projectView_err_iff (v : MatchView) :
    projectView v = .err "unknown match type" ↔ ∃ ms, v = .status ms := by
  cases v with
  | status ms => simp [projectView]
  | cancel c => simp [projectView]
  | lobby l =>
    simp only [projectView]
    cases addPlayers l.Lobby.AllMembers _ <;> simp
  | data d => simp [projectView]
  | details md => simp [projectView]

/-- C1, the failing input: the record under key "5" is neither cancelled nor
scheduled and the details request answers with result code 2.  `GetMatch`
returns the bare `MatchStatus` without error, and `GetMatchInfo`, whose type
switch has a case for `MatchDetails` but none for `MatchStatus`, fails with
"unknown match type". -/
theorem GetMatchInfo_unknown_match_type :
    (GetMatch (envOf 2 none) (serviceOf pool2) (worldOf (recordOf "lobby_active" 999 0)) "5").1 =
      .ok (.status { Status := "lobby_active", MatchId := 999, IsTournamentMatch := false }) ∧
    (GetMatchInfo (envOf 2 none) (serviceOf pool2) (worldOf (recordOf "lobby_active" 999 0))
      "5").1 = .err "unknown match type" := by
  constructor <;> decide

/-! ## Claims about `ScheduleMatch` -/

theorem toDigitsCore_ne_nil (b : Nat) (f : Nat) :
    ∀ (n : Nat) (ds : List Char), ds ≠ [] → Nat.toDigitsCore b f n ds ≠ [] := by
  induction f with
  | zero => intro n ds hds; simpa [Nat.toDigitsCore] using hds
  | succ f ih =>
    intro n ds hds
    simp only [Nat.toDigitsCore]
    split
    · simp
    · exact ih _ _ (by simp)

theorem repr_ne_empty (n : Nat) : Nat.repr n ≠ "" := by
  have hne : Nat.toDigits 10 n ≠ [] := by
    simp only [Nat.toDigits, Nat.toDigitsCore]
    split
    · simp
    · exact toDigitsCore_ne_nil _ _ _ _ (by simp)
  intro h
  apply hne
  have := congrArg String.data h
  simpa [Nat.repr, List.asString] using this

/-- The decimal rendering of an integer is never the empty string. -/
theorem FormatInt_ne_empty (i : Int) : FormatInt i ≠ "" := by
  cases i with
  | ofNat m => exact repr_ne_empty m
  | negSucc m =>
    intro h
    have hlen := congrArg String.length h
    simp [FormatInt, String.length_append] at hlen
    exact absurd hlen.1 (by decide)

/-- When the initial store write succeeds, `ScheduleMatch` returns the non-empty
decimal rendering of the clock reading, the store maps it to the initial
scheduled record, and it is in the registry. -/
theorem ScheduleMatch_write_ok (env : Env) (s : MatchService) (w : World) (req : CreateMatchReq)
    (hset : env.SetErr w.trace.length = none) :
    (ScheduleMatch env s w req).1 = .ok (FormatInt (env.UnixNano w.trace.length)) ∧
    FormatInt (env.UnixNano w.trace.length) ≠ "" ∧
    (ScheduleMatch env s w req).2.redis (FormatInt (env.UnixNano w.trace.length)) =
      some { MatchStatus := { Status := "scheduled", MatchId := 0, IsTournamentMatch := false },
             CancelReason := "", TeamDidntShow := "", HandlerId := 0 } ∧
    FormatInt (env.UnixNano w.trace.length) ∈ (ScheduleMatch env s w req).2.scheduled := by
  refine ⟨rfl, FormatInt_ne_empty _, ?_, ?_⟩
  · simp only [ScheduleMatch, World.emit, scheduled_matches_Add]
    exact SetMatchRedis_redis_self hset _ _
  · simp [ScheduleMatch, World.emit, scheduled_matches_Add]

/-- Whatever the store write does, `ScheduleMatch` returns no error. -/
theorem ScheduleMatch_never_errs (env : Env) (s : MatchService) (w : World)
    (req : CreateMatchReq) :
    (ScheduleMatch env s w req).1 = .ok (FormatInt (env.UnixNano w.trace.length)) := rfl

/-- C4, the failing input: the initial store write fails.  `ScheduleMatch`
drops the error of the write: it returns the identifier "42" without error,
registers it, and the store holds no record under it. -/
theorem ScheduleMatch_drops_write_error :
    (ScheduleMatch (envOf 1 (some "redis: connection refused")) (serviceOf pool2)
        (worldOf (recordOf "cancelled" 0 0))
        { TeamA := [1, 2, 3, 4, 5], TeamB := [6, 7, 8, 9, 10],
          LobbyConfig := { GameName := "g", PassKey := "p", ServerRegion := 3, GameMode := "AP" },
          StartTime := "now" }).1 = .ok "42" ∧
    (ScheduleMatch (envOf 1 (some "redis: connection refused")) (serviceOf pool2)
        (worldOf (recordOf "cancelled" 0 0))
        { TeamA := [1, 2, 3, 4, 5], TeamB := [6, 7, 8, 9, 10],
          LobbyConfig := { GameName := "g", PassKey := "p", ServerRegion := 3, GameMode := "AP" },
          StartTime := "now" }).2.redis "42" = none ∧
    "42" ∈ (ScheduleMatch (envOf 1 (some "redis: connection refused")) (serviceOf pool2)
        (worldOf (recordOf "cancelled" 0 0))
        { TeamA := [1, 2, 3, 4, 5], TeamB := [6, 7, 8, 9, 10],
          LobbyConfig := { GameName := "g", PassKey := "p", ServerRegion := 3, GameMode := "AP" },
          StartTime := "now" }).2.scheduled := by
  refine ⟨by decide, by decide, by decide⟩

/-! ## Claims about `ReinvitePlayers` -/

/-- The invite loop appends one invite effect per player, in request order. -/
theorem foldl_InviteLobbyMember (env : Env) (handler : Handler) (ps : List Nat) (w : World) :
    ps.foldl (fun w1 player => InviteLobbyMember env w1 handler player) w =
      { w with trace := w.trace ++ inviteEvents env handler w.trace.length ps } := by
  induction ps generalizing w with
  | nil => simp [inviteEvents]
  | cons p ps ih =>
    rw [List.foldl_cons, ih]
    simp [InviteLobbyMember, World.emit, inviteEvents]

theorem inviteEvents_length (env : Env) (handler : Handler) (t : Nat) (ps : List Nat) :
    (inviteEvents env handler t ps).length = ps.length := by
  induction ps generalizing t with
  | nil => rfl
  | cons p ps ih => simp [inviteEvents, ih]

theorem inviteEvents_target (env : Env) (handler : Handler) (t : Nat) (ps : List Nat) :
    (inviteEvents env handler t ps).map Event.inviteTarget =
      ps.map (fun p => some (handler, p)) := by
  induction ps generalizing t with
  | nil => rfl
  | cons p ps ih => simp [inviteEvents, Event.inviteTarget, ih]

/-- C8: when the decimal rendering of `req.MatchIdx` maps to a record whose
`HandlerId` is a valid index of the pool, `ReinvitePlayers` returns no error
whatever the invites do, the store and the registry are as before, and the new
effects are exactly one invite per requested player, in request order, each
through the pool handler at `HandlerId`, for any player id; when the record
cannot be read it returns the read error and the world is as before. -/
theorem ReinvitePlayers_invites (env : Env) (s : MatchService) (w : World)
    (req : ReinvitePlayersReq) :
    (∀ (m : MatchDetails) (hv : m.HandlerId < s.Handlers.length),
      w.redis (Itoa req.MatchIdx) = some m →
      ReinvitePlayers env s w req =
        (.ok (),
          { w with
            trace :=
              w.trace ++ inviteEvents env (s.Handlers[m.HandlerId]) w.trace.length req.Players }) ∧
      (inviteEvents env (s.Handlers[m.HandlerId]) w.trace.length req.Players).length =
        req.Players.length ∧
      (inviteEvents env (s.Handlers[m.HandlerId]) w.trace.length req.Players).map
          Event.inviteTarget =
        req.Players.map (fun p => some (s.Handlers[m.HandlerId], p))) ∧
    (∀ e, GetMatchRedis w (Itoa req.MatchIdx) = .error e →
      ReinvitePlayers env s w req = (.err e, w)) := by
  refine ⟨fun m hv hk => ⟨?_, inviteEvents_length _ _ _ _, inviteEvents_target _ _ _ _⟩,
    fun e he => ?_⟩
  · simp only [ReinvitePlayers, GetMatchRedis_of_some hk, List.getElem?_eq_getElem hv,
      foldl_InviteLobbyMember]
  · simp only [ReinvitePlayers, he]

/-- C8, witness: the record under key "5" is bound to handler index 1; players
1 and 77 (77 is on no roster) are invited through that handler only. -/
theorem ReinvitePlayers_invites_witness :
    ReinvitePlayers (envOf 1 none) (serviceOf pool2) (worldOf (recordOf "scheduled" 0 1))
        { MatchIdx := 5, Players := [1, 77] } =
      (.ok (), { worldOf (recordOf "scheduled" 0 1) with
        trace := [.inviteLobbyMember { Conn := 11 } 1 false,
                  .inviteLobbyMember { Conn := 11 } 77 false] }) :=
  ((ReinvitePlayers_invites (envOf 1 none) (serviceOf pool2) (worldOf (recordOf "scheduled" 0 1))
    { MatchIdx := 5, Players := [1, 77] }).1 (recordOf "scheduled" 0 1) (by decide)
    (by decide)).1

/-- C9, the failing input: the record under key "5" has `HandlerId = 2` and the
pool has two handlers (indices 0 and 1), and likewise with the empty pool.
`ReinvitePlayers` indexes the pool without a bounds check: the outcome is a
runtime panic, not an error value. -/
theorem ReinvitePlayers_index_out_of_range :
    (ReinvitePlayers (envOf 1 none) (serviceOf pool2) (worldOf (recordOf "scheduled" 0 2))
        { MatchIdx := 5, Players := [1, 77] }).1 = .fault "index out of range" ∧
    (ReinvitePlayers (envOf 1 none) (serviceOf []) (worldOf (recordOf "scheduled" 0 0))
        { MatchIdx := 5, Players := [1, 77] }).1 = .fault "index out of range" := by
  constructor <;> decide

/-! ## Claims about `GetPlayerHistory` -/

/-- The slicing step of `GetPlayerHistory` panics exactly for a negative limit. -/
theorem slice_step_none_iff (xs : List Nat) (limit : Int) :
    (if (xs.length : Int) < limit then some xs else sliceTo xs limit) = none ↔ limit < 0 := by
  unfold sliceTo
  by_cases hlt : (xs.length : Int) < limit
  · simp only [if_pos hlt]
    constructor
    · intro hcontra; cases hcontra
    · intro hneg; omega
  · simp only [if_neg hlt]
    by_cases hnn : 0 ≤ limit
    · rw [if_pos ⟨hnn, by omega⟩]
      constructor
      · intro hcontra; cases hcontra
      · intro hneg; omega
    · rw [if_neg (fun hboth => hnn hboth.1)]
      constructor
      · intro _; omega
      · intro _; rfl

/-- When every request of the loop is answered, the loop appends the answers in
order and issues one details request per id, in order. -/
theorem requestAll_ok (env : Env) (handler : Handler) :
    ∀ (ids : List Nat) (w : World) (found ds : List CMsgGCMatchDetailsResponse),
      ds.length = ids.length →
      (∀ (i : Nat) (h1 : i < ids.length) (h2 : i < ds.length),
        env.Details (w.trace.length + i) handler ids[i] = .ok ds[i]) →
      requestAll env handler ids w found =
        (.ok (found ++ ds),
          { w with trace := w.trace ++ ids.map (fun id => .requestMatchDetails handler id) }) := by
  intro ids
  induction ids with
  | nil =>
    intro w found ds hlen _
    have hds : ds = [] := List.length_eq_zero.mp hlen
    subst hds
    simp [requestAll]
  | cons id rest ih =>
    intro w found ds hlen hans
    cases ds with
    | nil => simp at hlen
    | cons d ds1 =>
      have h0 := hans 0 (by simp) (by simp)
      simp only [Nat.add_zero, List.getElem_cons_zero] at h0
      simp only [requestAll, RequestMatchDetails, h0]
      rw [ih (w.emit (.requestMatchDetails handler id)) (found ++ [d]) ds1
        (by simpa using hlen)
        (fun i h1 h2 => by
          have hi := hans (i + 1) (by simp; omega) (by simp; omega)
          simp only [List.getElem_cons_succ] at hi
          rw [emit_trace_length, Nat.add_assoc, Nat.add_comm 1 i]
          exact hi)]
      simp [World.emit]

/-- When the requests for the ids `pre` are answered and the next one fails,
the loop returns that error; the requests issued are those for `pre` and the
failing one. -/
theorem requestAll_err (env : Env) (handler : Handler) (id : Nat) (post : List Nat)
    (e : GoError) :
    ∀ (pre : List Nat) (w : World) (found ds : List CMsgGCMatchDetailsResponse),
      ds.length = pre.length →
      (∀ (i : Nat) (h1 : i < pre.length) (h2 : i < ds.length),
        env.Details (w.trace.length + i) handler pre[i] = .ok ds[i]) →
      env.Details (w.trace.length + pre.length) handler id = .error e →
      requestAll env handler (pre ++ id :: post) w found =
        (.err e,
          { w with trace := w.trace ++
              (pre ++ [id]).map (fun id => .requestMatchDetails handler id) }) := by
  intro pre
  induction pre with
  | nil =>
    intro w found ds _ _ hfail
    simp only [List.length_nil, Nat.add_zero] at hfail
    simp [requestAll, RequestMatchDetails, hfail, World.emit]
  | cons p rest ih =>
    intro w found ds hlen hans hfail
    cases ds with
    | nil => simp at hlen
    | cons d ds1 =>
      have h0 := hans 0 (by simp) (by simp)
      simp only [Nat.add_zero, List.getElem_cons_zero] at h0
      rw [List.cons_append]
      simp only [requestAll, RequestMatchDetails, h0]
      rw [ih (w.emit (.requestMatchDetails handler p)) (found ++ [d]) ds1
        (by simpa using hlen)
        (fun i h1 h2 => by
          have hi := hans (i + 1) (by simp; omega) (by simp; omega)
          simp only [List.getElem_cons_succ] at hi
          rw [emit_trace_length, Nat.add_assoc, Nat.add_comm 1 i]
          exact hi)
        (by
          rw [emit_trace_length, Nat.add_assoc, Nat.add_comm 1 rest.length]
          simpa using hfail)]
      simp [World.emit]

/-- For a limit that is not negative, `GetPlayerHistory` runs the request loop
over the first `min limit len` stored ids, in stored order, through the first
handler of the pool. -/
theorem GetPlayerHistory_nonneg (env : Env) (s : MatchService) (w : World) (steamId : Int)
    (limit : Int) (playerModel : Player) (h : Handler) (rest : List Handler)
    (hlimit : 0 ≤ limit)
    (herr : (s.Repo.Get "players" steamId).Err = none)
    (hdec : (s.Repo.Get "players" steamId).Decode = .ok playerModel)
    (hp : s.Handlers = h :: rest) :
    GetPlayerHistory env s w steamId limit =
      requestAll env h (playerModel.Matches.take limit.toNat) w [] ∧
    (playerModel.Matches.take limit.toNat).length = min limit.toNat playerModel.Matches.length := by
  refine ⟨?_, List.length_take _ _⟩
  simp only [GetPlayerHistory, herr, hdec, hp, GetFirstHandler_cons]
  by_cases hlt : (playerModel.Matches.length : Int) < limit
  · rw [if_pos hlt, List.take_of_length_le (by omega)]
  · rw [if_neg hlt]
    simp only [sliceTo]
    rw [if_pos ⟨hlimit, by omega⟩]

/-- C10, the failing input: player 76 has three stored match ids and the limit
is -1.  The test `len < limit` is false, so the code evaluates `Matches[:-1]`:
the outcome is a runtime panic and no details request is issued. -/
theorem GetPlayerHistory_negative_limit :
    GetFirstHandler (serviceOf pool2).Handlers = .ok ({ Conn := 10 }, 0) ∧
    (GetPlayerHistory (envOf 1 none) (serviceOf pool2) (worldOf (recordOf "scheduled" 0 0))
        76 (-1)).1 = .fault "slice bounds out of range" ∧
    (GetPlayerHistory (envOf 1 none) (serviceOf pool2) (worldOf (recordOf "scheduled" 0 0))
        76 (-1)).2.trace = [] := by
  refine ⟨rfl, by decide, by decide⟩

end D2Api

namespace D2Api

/-! ## How calls change the store -/

theorem finish_status (m : MatchDetails) : m.finish.MatchStatus.Status = "finished" := rfl

theorem finish_finish (m : MatchDetails) : m.finish.finish = m.finish := rfl

theorem finish_of_finished {m : MatchDetails} (hf : m.MatchStatus.Status = "finished") :
    m.finish = m := by
  obtain ⟨⟨status, matchId, tour⟩, reason, team, handlerId⟩ := m
  simp only at hf
  subst hf
  rfl

/-- The store after `GetMatch`: as before, or with the record of `matchIdx`
finished; the latter only for a record neither cancelled nor scheduled whose
details request answered with result code 1. -/
theorem GetMatch_redis (env : Env) (s : MatchService) (w : World) (matchIdx : String) :
    (GetMatch env s w matchIdx).2.redis = w.redis ∨
    ∃ m h rest d, w.redis matchIdx = some m ∧
      m.MatchStatus.Status ≠ "cancelled" ∧ m.MatchStatus.Status ≠ "scheduled" ∧
      s.Handlers = h :: rest ∧
      env.Details w.trace.length h m.MatchStatus.MatchId = .ok d ∧ d.Result = some 1 ∧
      (GetMatch env s w matchIdx).2.redis =
        fun k => if k = matchIdx then some m.finish else w.redis k := by
  cases hk : w.redis matchIdx with
  | none => left; simp [GetMatch, GetMatchRedis, hk]
  | some m =>
    cases hp : s.Handlers with
    | nil => left; simp [GetMatch, GetMatchRedis, hk, hp, GetFirstHandler]
    | cons h rest =>
      by_cases hc : m.MatchStatus.Status = "cancelled"
      · left; simp [GetMatch, GetMatchRedis, hk, hp, GetFirstHandler, hc]
      · by_cases hs : m.MatchStatus.Status = "scheduled"
        · left
          simp only [GetMatch, GetMatchRedis_of_some hk, hp, GetFirstHandler_cons, if_neg hc,
            if_pos hs, GetCurrentLobby]
          cases env.Lobby w.trace.length h <;> rfl
        · cases hd : env.Details w.trace.length h m.MatchStatus.MatchId with
          | error e =>
            left
            simp [GetMatch, GetMatchRedis, hk, hp, GetFirstHandler, hc, hs, RequestMatchDetails,
              hd, World.emit]
          | ok d =>
            rw [GetMatch_details hk hc hs hp hd]
            cases hres : d.Result with
            | none => left; rfl
            | some code =>
              simp only []
              by_cases h1 : code = 1
              · rw [if_pos h1]
                cases hset : env.SetErr (w.trace.length + 1) with
                | some e =>
                  left
                  rw [SetMatchRedis_fail (by rw [emit_trace_length]; exact hset)]
                  rfl
                | none =>
                  right
                  refine ⟨m, h, rest, d, rfl, hc, hs, rfl, hd, by rw [hres, h1], ?_⟩
                  simp [SetMatchRedis, emit_trace_length, hset, World.emit]
              · left
                rw [if_neg h1]
                by_cases h2 : code = 2
                · rw [if_pos h2]; rfl
                · rw [if_neg h2]; rfl

theorem GetMatchInfo_world (env : Env) (s : MatchService) (w : World) (matchIdx : String) :
    (GetMatchInfo env s w matchIdx).2 = (GetMatch env s w matchIdx).2 := by
  unfold GetMatchInfo
  rcases hg : GetMatch env s w matchIdx with ⟨_ | _ | _, w1⟩ <;> rfl

theorem ReinvitePlayers_redis (env : Env) (s : MatchService) (w : World)
    (req : ReinvitePlayersReq) : (ReinvitePlayers env s w req).2.redis = w.redis := by
  unfold ReinvitePlayers
  cases GetMatchRedis w (Itoa req.MatchIdx) with
  | error e => rfl
  | ok m =>
    cases hh : s.Handlers[m.HandlerId]? with
    | none => simp only [hh]
    | some handler => simp only [hh, foldl_InviteLobbyMember]

theorem ScheduleMatch_redis_other (env : Env) (s : MatchService) (w : World)
    (req : CreateMatchReq) {k : String} (hne : k ≠ FormatInt (env.UnixNano w.trace.length)) :
    (ScheduleMatch env s w req).2.redis k = w.redis k := by
  simp only [ScheduleMatch, World.emit, scheduled_matches_Add]
  exact SetMatchRedis_redis_other _ _ hne

/-- One call: the record of `k` is as before, or it was finished by `GetMatch`
(directly or through `GetMatchInfo`) under the stated conditions. -/
theorem Call.run_redis (env : Env) (s : MatchService) (w : World) (k : String)
    (m : MatchDetails) (hk : w.redis k = some m) (c : Call) (hfresh : c.fresh env w = true) :
    (c.run env s w).redis k = some m ∨
    ((c = .getMatch k ∨ c = .getMatchInfo k) ∧
      m.MatchStatus.Status ≠ "cancelled" ∧ m.MatchStatus.Status ≠ "scheduled" ∧
      (∃ h rest d, s.Handlers = h :: rest ∧
        env.Details w.trace.length h m.MatchStatus.MatchId = .ok d ∧ d.Result = some 1) ∧
      (c.run env s w).redis k = some m.finish) := by
  have key : ∀ matchIdx, (GetMatch env s w matchIdx).2.redis k = some m ∨
      (matchIdx = k ∧
        m.MatchStatus.Status ≠ "cancelled" ∧ m.MatchStatus.Status ≠ "scheduled" ∧
        (∃ h rest d, s.Handlers = h :: rest ∧
          env.Details w.trace.length h m.MatchStatus.MatchId = .ok d ∧ d.Result = some 1) ∧
        (GetMatch env s w matchIdx).2.redis k = some m.finish) := by
    intro matchIdx
    rcases GetMatch_redis env s w matchIdx with hsame | ⟨m0, h, rest, d, hk0, hc, hs, hp, hd, h1, hnew⟩
    · left; rw [hsame, hk]
    · by_cases hkk : k = matchIdx
      · subst hkk
        rw [hk] at hk0
        cases hk0
        right
        exact ⟨rfl, hc, hs, ⟨h, rest, d, hp, hd, h1⟩, by rw [hnew]; simp⟩
      · left; rw [hnew]; simp [hkk, hk]
  cases c with
  | scheduleMatch req =>
    left
    have hne : k ≠ FormatInt (env.UnixNano w.trace.length) := by
      intro heq
      rw [heq] at hk
      rw [Option.isNone_iff_eq_none.mp hfresh] at hk
      cases hk
    show (ScheduleMatch env s w req).2.redis k = some m
    rw [ScheduleMatch_redis_other env s w req hne, hk]
  | getMatch matchIdx =>
    rcases key matchIdx with hsame | ⟨hidx, hc, hs, hex, hnew⟩
    · left; exact hsame
    · right; exact ⟨Or.inl (by rw [hidx]), hc, hs, hex, hnew⟩
  | getMatchInfo matchIdx =>
    show (GetMatchInfo env s w matchIdx).2.redis k = some m ∨ _
    rw [GetMatchInfo_world]
    rcases key matchIdx with hsame | ⟨hidx, hc, hs, hex, hnew⟩
    · left; exact hsame
    · right
      refine ⟨Or.inr (by rw [hidx]), hc, hs, hex, ?_⟩
      show (GetMatchInfo env s w matchIdx).2.redis k = some m.finish
      rw [GetMatchInfo_world]
      exact hnew
  | reinvitePlayers req =>
    left
    show (ReinvitePlayers env s w req).2.redis k = some m
    rw [ReinvitePlayers_redis, hk]

/-- A sequence of calls: the record of `k` is as at the start, or it is the
record of the start with its status replaced by "finished", and then the
record of the start was neither cancelled nor scheduled. -/
theorem runCalls_redis (env : Env) (s : MatchService) (k : String) (cs : List Call) :
    ∀ (w : World) (m : MatchDetails), w.redis k = some m → freshCalls env s cs w = true →
      (runCalls env s cs w).redis k = some m ∨
      (m.MatchStatus.Status ≠ "cancelled" ∧ m.MatchStatus.Status ≠ "scheduled" ∧
        (runCalls env s cs w).redis k = some m.finish) := by
  induction cs with
  | nil => intro w m hk _; left; exact hk
  | cons c cs ih =>
    intro w m hk hfresh
    obtain ⟨hc0, hrest⟩ := Bool.and_eq_true_iff.mp hfresh
    rcases Call.run_redis env s w k m hk c hc0 with hsame | ⟨_, hc, hs, _, hnew⟩
    · exact ih (c.run env s w) m hsame hrest
    · right
      refine ⟨hc, hs, ?_⟩
      rcases ih (c.run env s w) m.finish hnew hrest with h1 | ⟨_, _, h2⟩
      · exact h1
      · rw [finish_finish] at h2; exact h2

/-- Polling a scheduled record any number of times leaves the store as it was. -/
theorem runCalls_getMatch_scheduled (env : Env) (s : MatchService) (k : String)
    (m : MatchDetails) (hs : m.MatchStatus.Status = "scheduled") (n : Nat) :
    ∀ w : World, w.redis k = some m →
      (runCalls env s (List.replicate n (.getMatch k)) w).redis = w.redis := by
  induction n with
  | zero => intro w _; rfl
  | succ n ih =>
    intro w hk
    have hstep : (GetMatch env s w k).2.redis = w.redis := by
      rcases GetMatch_redis env s w k with hsame | ⟨m0, _, _, _, hk0, _, hs0, _⟩
      · exact hsame
      · rw [hk] at hk0
        cases hk0
        exact absurd hs hs0
    show (runCalls env s (List.replicate n (.getMatch k)) (GetMatch env s w k).2).redis = w.redis
    rw [ih _ (by rw [hstep]; exact hk), hstep]

/-- C6: for a record `m` stored under `k`.  (1) One call of `ScheduleMatch` with
a fresh identifier, `GetMatch`, `GetMatchInfo` or `ReinvitePlayers` leaves the
record as it was, unless the call is `GetMatch` on `k` (directly or through
`GetMatchInfo`), the record is neither cancelled nor scheduled and the details
request answers with result code 1; then the record becomes `m` with status
"finished".  (2) After any sequence of such calls a record that was finished
or cancelled is the same record.  (3) Any number of `GetMatch` calls on a
scheduled record leaves the whole store as it was. -/
theorem stored_status_transitions (env : Env) (s : MatchService) (w : World) (k : String)
    (m : MatchDetails) (hk : w.redis k = some m) :
    (∀ c : Call, c.fresh env w = true →
      (c.run env s w).redis k = some m ∨
      ((c = .getMatch k ∨ c = .getMatchInfo k) ∧
        m.MatchStatus.Status ≠ "cancelled" ∧ m.MatchStatus.Status ≠ "scheduled" ∧
        (∃ h rest d, s.Handlers = h :: rest ∧
          env.Details w.trace.length h m.MatchStatus.MatchId = .ok d ∧ d.Result = some 1) ∧
        (c.run env s w).redis k = some m.finish)) ∧
    (∀ cs : List Call, freshCalls env s cs w = true →
      (m.MatchStatus.Status = "finished" ∨ m.MatchStatus.Status = "cancelled") →
      (runCalls env s cs w).redis k = some m) ∧
    (m.MatchStatus.Status = "scheduled" →
      ∀ n : Nat, (runCalls env s (List.replicate n (.getMatch k)) w).redis = w.redis) := by
  refine ⟨fun c hfresh => Call.run_redis env s w k m hk c hfresh, fun cs hfresh hterm => ?_,
    fun hs n => runCalls_getMatch_scheduled env s k m hs n w hk⟩
  rcases runCalls_redis env s k cs w m hk hfresh with hsame | ⟨hc, _, hnew⟩
  · exact hsame
  · rcases hterm with hf | hcan
    · rw [hnew, finish_of_finished hf]
    · exact absurd hcan hc

/-- C6, witness: the finished record under key "5" is still the same record
after a poll that answers "complete", a schedule call generating "42", a
reinvite and a `GetMatchInfo`. -/
theorem stored_status_transitions_witness :
    (runCalls (envOf 1 none) (serviceOf pool2)
        [.getMatch "5",
         .scheduleMatch { TeamA := [1], TeamB := [6],
                          LobbyConfig := { GameName := "g", PassKey := "p", ServerRegion := 3,
                                           GameMode := "AP" },
                          StartTime := "now" },
         .reinvitePlayers { MatchIdx := 5, Players := [1, 77] },
         .getMatchInfo "5"]
        (worldOf (recordOf "finished" 999 0))).redis "5" = some (recordOf "finished" 999 0) :=
  (stored_status_transitions (envOf 1 none) (serviceOf pool2) (worldOf (recordOf "finished" 999 0))
    "5" (recordOf "finished" 999 0) (by decide)).2.1 _ (by decide) (Or.inl (by decide))

end D2Api
